import Mathlib

/-!
Verification of the CVAT frame cache / chunk-prefetch coordinator
(`cvat-core/src/frames.js`).

The JavaScript module is single-threaded and callback-driven.  We embed it
shallowly as explicit state-passing functions over the per-task cache entry,
together with an event log recording the externally observable actions
(calls to `serverProxy.frames.getData`, `provider.isChunkCached`,
`provider.requestDecodeBlock`, and the resolution / rejection of the
promises handed to waiters).  Promise continuations (`resolve` / `reject`
pairs) are identified by a numeric id; resolving a waiter is recorded as an
`Event.resolved` carrying the id and the frame number whose decoded frame
(`provider.frame(frameNumber)`) is passed to the continuation.

JavaScript numbers appearing here are non-negative integers (frame and
chunk indices); `parseInt(x, 10)` and `Math.floor` on such values both
compute the integer floor, embedded as `Nat` division.  The one place the
source divides non-integers (the decoded-block budget) is embedded over `ℚ`
with `Nat.floor`, mirroring the exact real-number value of the JavaScript
float expression.
-/

namespace CvatFrames

/-- One entry of a frame-size metadata sequence (`meta[i]`). -/
structure Size where
  width : Nat
  height : Nat
deriving DecidableEq

/-- One element of a slot's `callbacks` array: the `resolve`/`reject`
continuation pair (identified by `resolveId`) and the requested frame. -/
structure Waiter where
  resolveId : Nat
  frameNumber : Nat
deriving DecidableEq

/-- What a rejection carries: `r.reject(r.frameNumber)` passes the waiter's
own frame number; the `.catch` paths pass an `Exception` wrapping the
original message. -/
inductive Reason where
  | frameNr (n : Nat)
  | exception (msg : String)
deriving DecidableEq

/-- Externally observable actions of the coordinator. -/
inductive Event where
  | serverRequest
  | isChunkCachedQuery (start stop : Nat)
  | getData (chunkNumber : Nat)
  | requestDecodeBlock (hasChunk : Bool) (start stop capturedChunk : Nat)
  | resolved (id : Nat) (frameNumber : Nat)
  | rejected (id : Nat) (reason : Reason)
deriving DecidableEq

/-- The record stored in `activeChunkRequest` / `nextChunkRequest`
(the `request` promise handle is not modelled; the stored `onDecodeAll` /
`rejectRequestAll` closures captured the same chunk number as the
`chunkNumber` field, so they are represented by that number). -/
structure ChunkRequest where
  chunkNumber : Nat
  start : Nat
  stop : Nat
  completed : Bool
  callbacks : List Waiter
deriving DecidableEq

/-- One value of `frameDataCache[tid]`.  `cachedFrames` mirrors the external
provider's `cachedFrames` report (read by `getRanges`). -/
structure CacheEntry where
  meta : List Size
  chunkSize : Nat
  decodedBlocksCacheSize : Nat
  lastFrameRequest : Nat
  activeChunkRequest : Option ChunkRequest
  nextChunkRequest : Option ChunkRequest
  cachedFrames : List (Nat × Nat)
deriving DecidableEq

/-- The `FrameData` value constructed by `getFrame`. -/
structure FrameData where
  width : Nat
  height : Nat
  tid : Nat
  number : Nat
  startFrame : Nat
  stopFrame : Nat
deriving DecidableEq

/-- `r.reject(r.frameNumber)`: reject a waiter with its own frame number. -/
def rejectEvent (w : Waiter) : Event :=
  Event.rejected w.resolveId (Reason.frameNr w.frameNumber)

/-- The splice loop inside `onDecodeAll`: iterate the callback array from the
last index down to 0, remove every entry matching the decoded frame number
and resolve it (with `provider.frame` of its frame number).  Returns the
remaining array and the emitted events in execution order. -/
def spliceResolve (frameNumber : Nat) : List Waiter → List Waiter × List Event
  | [] => ([], [])
  | w :: ws =>
    let r := spliceResolve frameNumber ws
    if w.frameNumber = frameNumber then
      (r.1, r.2 ++ [Event.resolved w.resolveId w.frameNumber])
    else
      (w :: r.1, r.2)

/-- The `onDecodeAll` closure (decode-progress callback).  `capturedChunk` is
the chunk number captured when the closure was created.  It acts only when an
active slot exists and its chunk number equals the captured one; it then
splices out and resolves every waiter for the decoded frame and clears the
active slot when the callback array has become empty. -/
def onDecodeAllFn (capturedChunk frameNumber : Nat) (e : CacheEntry) :
    CacheEntry × List Event :=
  match e.activeChunkRequest with
  | some s =>
    if capturedChunk = s.chunkNumber then
      let r := spliceResolve frameNumber s.callbacks
      if r.1.isEmpty then
        ({ e with activeChunkRequest := none }, r.2)
      else
        ({ e with activeChunkRequest := some { s with callbacks := r.1 } }, r.2)
    else
      (e, [])
  | none => (e, [])

/-- The `rejectRequestAll` closure (decode-failure callback): under the same
guard, reject every waiter of the active slot with its own frame number and
clear the slot. -/
def rejectRequestAllFn (capturedChunk : Nat) (e : CacheEntry) :
    CacheEntry × List Event :=
  match e.activeChunkRequest with
  | some s =>
    if capturedChunk = s.chunkNumber then
      ({ e with activeChunkRequest := none }, s.callbacks.map rejectEvent)
    else
      (e, [])
  | none => (e, [])

/-- The `.finally` block of `makeActiveRequest`: if a next slot is queued,
reject all waiters still held by the active slot, promote the next slot to
active and start its fetch (the recursive `makeActiveRequest()` call issues
`serverProxy.frames.getData` for the promoted chunk). -/
def settleFinally (e : CacheEntry) : CacheEntry × List Event :=
  match e.nextChunkRequest with
  | some n =>
    let rejEvs :=
      match e.activeChunkRequest with
      | some s => s.callbacks.map rejectEvent
      | none => []
    ({ e with activeChunkRequest := some n, nextChunkRequest := none },
     rejEvs ++ [Event.getData n.chunkNumber])
  | none => (e, [])

/-- Settlement of a successful `getData` fetch (`.then` handler followed by
`.finally`): mark the current active slot completed, hand the chunk to
`provider.requestDecodeBlock` over the slot's range with the slot's stored
callbacks, then run the `finally` promotion.  When no active slot is present
the field write throws a `TypeError`, which the `.catch` turns into a
rejection of the outer promise `outerId` (the promise of the `data()` call
whose closure created this fetch). -/
def settleFetchSuccess (outerId : Nat) (e : CacheEntry) :
    CacheEntry × List Event :=
  match e.activeChunkRequest with
  | some s =>
    let e1 := { e with activeChunkRequest := some { s with completed := true } }
    let r := settleFinally e1
    (r.1, Event.requestDecodeBlock true s.start s.stop s.chunkNumber :: r.2)
  | none =>
    let r := settleFinally e
    (r.1, Event.rejected outerId (Reason.exception "TypeError") :: r.2)

/-- Settlement of a failed `getData` fetch (`.catch` followed by
`.finally`): the outer promise `outerId` is rejected with an `Exception`
carrying the original message, then the `finally` promotion runs.  Note that
the `.catch` touches neither the slot nor its callback array. -/
def settleFetchFailure (outerId : Nat) (msg : String) (e : CacheEntry) :
    CacheEntry × List Event :=
  let r := settleFinally e
  (r.1, Event.rejected outerId (Reason.exception msg) :: r.2)

/-- A freshly created slot record: `completed` false, a single waiter. -/
def newChunkRequest (chunkNumber start stop : Nat) (w : Waiter) : ChunkRequest :=
  { chunkNumber := chunkNumber, start := start, stop := stop,
    completed := false, callbacks := [w] }

/-- The browser branch of `FrameData.prototype.data.implementation` for one
request (a synchronous run of the promise executor plus the
`provider.frame` continuation).  `reqId` identifies this request's promise,
`frameHit` is the oracle for `provider.frame(number)` returning a frame, and
`chunkCached` for `provider.isChunkCached(start, stop)`. -/
def dataImplementation (fd : FrameData) (reqId : Nat)
    (frameHit chunkCached : Bool) (e : CacheEntry) : CacheEntry × List Event :=
  let chunkSize := e.chunkSize
  let start := max fd.startFrame (fd.number / chunkSize * chunkSize)
  let stop := min fd.stopFrame ((fd.number / chunkSize + 1) * chunkSize - 1)
  let chunkNumber := fd.number / chunkSize
  let fresh := newChunkRequest chunkNumber start stop ⟨reqId, fd.number⟩
  if frameHit then
    (e, [Event.resolved reqId fd.number])
  else
    let evs0 := [Event.serverRequest, Event.isChunkCachedQuery start stop]
    if !chunkCached then
      match e.activeChunkRequest with
      | none =>
        ({ e with activeChunkRequest := some fresh },
         evs0 ++ [Event.getData chunkNumber])
      | some s =>
        if s.completed then
          -- displace the (completed) active slot via its stored
          -- `rejectRequestAll`, whose captured chunk is the slot's own
          let r := rejectRequestAllFn s.chunkNumber e
          ({ r.1 with activeChunkRequest := some fresh },
           evs0 ++ r.2 ++ [Event.getData chunkNumber])
        else if s.chunkNumber = chunkNumber then
          let s1 := { s with callbacks := s.callbacks ++ [⟨reqId, fd.number⟩] }
          ({ e with activeChunkRequest := some s1 }, evs0)
        else
          let rejEvs :=
            match e.nextChunkRequest with
            | some n => n.callbacks.map rejectEvent
            | none => []
          ({ e with nextChunkRequest := some fresh }, evs0 ++ rejEvs)
    else
      match e.activeChunkRequest with
      | some s =>
        let s1 := { s with callbacks := s.callbacks ++ [⟨reqId, fd.number⟩] }
        ({ e with activeChunkRequest := some s1 },
         evs0 ++ [Event.requestDecodeBlock false start stop chunkNumber])
      | none =>
        -- `activeChunkRequest.callbacks` on `undefined`: TypeError, caught
        -- by the `.catch` which rejects this request's promise
        (e, evs0 ++ [Event.rejected reqId (Reason.exception "TypeError")])

/-- Run a batch of `data()` requests back to back (the single-threaded
executor runs each synchronously; no fetch settles in between).  Every
request misses the decoder (`provider.frame` returned `null`) and its chunk
byte range is not yet cached. -/
def runRequests (reqs : List (Nat × FrameData)) (e : CacheEntry) :
    CacheEntry × List Event :=
  match reqs with
  | [] => (e, [])
  | (reqId, fd) :: rest =>
    let r1 := dataImplementation fd reqId false false e
    let r2 := runRequests rest r1.1
    (r2.1, r1.2 ++ r2.2)

/-- A successful block decode: the decoder invokes the stored `onDecodeAll`
once per decoded frame, in some enumeration `frames` of the block. -/
def decodeFrames (capturedChunk : Nat) (frames : List Nat) (e : CacheEntry) :
    CacheEntry × List Event :=
  match frames with
  | [] => (e, [])
  | k :: rest =>
    let r1 := onDecodeAllFn capturedChunk k e
    let r2 := decodeFrames capturedChunk rest r1.1
    (r2.1, r1.2 ++ r2.2)

/-- Number of `getData` (remote chunk fetch) calls recorded in a log. -/
def countGetData (evs : List Event) : Nat :=
  evs.countP fun ev =>
    match ev with
    | Event.getData _ => true
    | _ => false

/-- Does an event settle (resolve or reject) continuation `id`? -/
def touches (id : Nat) (ev : Event) : Bool :=
  match ev with
  | Event.resolved i _ => i == id
  | Event.rejected i _ => i == id
  | _ => false

/-- How many times continuation `id` is settled in a log. -/
def countTouch (id : Nat) (evs : List Event) : Nat :=
  evs.countP (touches id)

/-- The waiters of a callback list left over after all frames of `fns` have
been decoded: those whose frame number is not among the decoded frames. -/
def remainingCallbacks (ws : List Waiter) (fns : List Nat) : List Waiter :=
  ws.filter fun w => !(decide (w.frameNumber ∈ fns))

/-- The resolution events emitted while decoding the frames of `fns` in
order against an initial callback list `ws`: for each decoded frame, the
matching waiters are resolved in back-to-front list order. -/
def resolvedEvents (ws : List Waiter) (fns : List Nat) : List Event :=
  (fns.map fun k =>
    ((ws.filter fun w => w.frameNumber == k).reverse).map fun w =>
      Event.resolved w.resolveId w.frameNumber).flatten

/-! ### The public module functions -/

/-- Errors produced by `getFrame`: `ArgumentError`s thrown by
`getFrameSize`, and the `TypeError` of reading `size.width` when
interpolation metadata is empty. -/
inductive GetFrameError where
  | argumentError (msg : String)
  | typeError
deriving DecidableEq

def metaErrorMessage (frame : Nat) : String :=
  "Meta information about frame " ++ toString frame ++
    " cannot be received from the server"

def invalidModeMessage (mode : String) : String :=
  "Invalid mode is specified " ++ mode

/-- `getFrameSize` inside `getFrame`: interpolation mode destructures the
first metadata entry (possibly `undefined` on empty metadata, hence the
`Option`); annotation mode indexes by frame after a bounds check; any other
mode is an argument error. -/
def getFrameSize (mode : String) (frame : Nat) (meta : List Size) :
    Except GetFrameError (Option Size) :=
  if mode = "interpolation" then
    Except.ok meta.head?
  else if mode = "annotation" then
    if meta.length ≤ frame then
      Except.error (GetFrameError.argumentError (metaErrorMessage frame))
    else
      Except.ok (meta.get? frame)
  else
    Except.error (GetFrameError.argumentError (invalidModeMessage mode))

/-- The decoded-blocks budget computed on first `getFrame` for a task:
`Math.floor(2147483648 / 1920 / 1080 / 4 / chunkSize) || 1` for video,
`Math.floor(500 / chunkSize) || 1` otherwise (`|| 1` replaces a zero
result by 1). -/
def decodedBlocksCacheSizeFn (chunkType : String) (chunkSize : Nat) : Nat :=
  if chunkType = "video" then
    let b := Nat.floor ((2147483648 : ℚ) / 1920 / 1080 / 4 / (chunkSize : ℚ))
    if b = 0 then 1 else b
  else
    let b := Nat.floor ((500 : ℚ) / (chunkSize : ℚ))
    if b = 0 then 1 else b

/-- The process-wide `frameDataCache`, keyed by task id. -/
def Registry := List (Nat × CacheEntry)

def lookupTask : Registry → Nat → Option CacheEntry
  | [], _ => none
  | (t, e) :: rest, taskID => if t = taskID then some e else lookupTask rest taskID

def updateTask (reg : Registry) (taskID : Nat) (f : CacheEntry → CacheEntry) :
    Registry :=
  (reg : List (Nat × CacheEntry)).map fun p =>
    if p.1 = taskID then (p.1, f p.2) else p

/-- `getFrame`: lazily create the per-task cache entry (fetching metadata —
passed in as `fetchedMeta` — and computing the budget), then compute the
frame size, record the last requested frame, and build the `FrameData`.
The entry is inserted *before* `getFrameSize` runs. -/
def getFrame (reg : Registry) (taskID chunkSize : Nat) (chunkType mode : String)
    (frame startFrame stopFrame : Nat) (fetchedMeta : List Size) :
    Registry × Except GetFrameError FrameData :=
  let reg1 : Registry :=
    match lookupTask reg taskID with
    | some _ => reg
    | none =>
      (taskID,
        { meta := fetchedMeta
          chunkSize := chunkSize
          decodedBlocksCacheSize := decodedBlocksCacheSizeFn chunkType chunkSize
          lastFrameRequest := frame
          activeChunkRequest := none
          nextChunkRequest := none
          cachedFrames := [] }) :: reg
  match lookupTask reg1 taskID with
  | none => (reg1, Except.error GetFrameError.typeError)
  | some e =>
    match getFrameSize mode frame e.meta with
    | Except.error err => (reg1, Except.error err)
    | Except.ok none => (reg1, Except.error GetFrameError.typeError)
    | Except.ok (some size) =>
      (updateTask reg1 taskID fun e2 => { e2 with lastFrameRequest := frame },
       Except.ok
         { width := size.width, height := size.height, tid := taskID,
           number := frame, startFrame := startFrame, stopFrame := stopFrame })

/-- `getRanges`: empty list for an unknown task, otherwise the provider's
`cachedFrames` report; the registry is returned untouched. -/
def getRanges (reg : Registry) (taskID : Nat) : List (Nat × Nat) × Registry :=
  match lookupTask reg taskID with
  | none => ([], reg)
  | some e => (e.cachedFrames, reg)

/-! ### Helper lemmas -/

lemma videoBudget_eq (c : Nat) :
    Nat.floor ((2147483648 : ℚ) / 1920 / 1080 / 4 / (c : ℚ)) =
      2147483648 / (1920 * 1080 * 4 * c) := by
  have h : (2147483648 : ℚ) / 1920 / 1080 / 4 / (c : ℚ)
      = ((2147483648 : ℕ) : ℚ) / ((1920 * 1080 * 4 * c : ℕ) : ℚ) := by
    push_cast
    ring
  rw [h, Nat.floor_div_nat, Nat.floor_natCast]

lemma archiveBudget_eq (c : Nat) :
    Nat.floor ((500 : ℚ) / (c : ℚ)) = 500 / c := by
  have h : (500 : ℚ) / (c : ℚ) = ((500 : ℕ) : ℚ) / ((c : ℕ) : ℚ) := by
    push_cast
    ring
  rw [h, Nat.floor_div_nat, Nat.floor_natCast]

/-- Branch (b) of the miss path: an active slot exists, its fetch is not
completed, and its chunk equals the request's chunk — the request is
appended to the waiter list and nothing else happens. -/
lemma dataImpl_append_same_chunk (fd : FrameData) (reqId : Nat)
    (e : CacheEntry) (s : ChunkRequest)
    (hA : e.activeChunkRequest = some s) (hC : s.completed = false)
    (hK : s.chunkNumber = fd.number / e.chunkSize) :
    dataImplementation fd reqId false false e =
      ({ e with activeChunkRequest :=
                  some { s with callbacks := s.callbacks ++ [⟨reqId, fd.number⟩] } },
       [Event.serverRequest,
        Event.isChunkCachedQuery
          (max fd.startFrame (fd.number / e.chunkSize * e.chunkSize))
          (min fd.stopFrame ((fd.number / e.chunkSize + 1) * e.chunkSize - 1))]) := by
  unfold dataImplementation
  simp [hA, hC, hK]

/-- Branch (a) of the miss path with no existing active slot: a fresh active
slot is created with this request as sole waiter and its fetch starts. -/
lemma dataImpl_fresh (fd : FrameData) (reqId : Nat) (e : CacheEntry)
    (hA : e.activeChunkRequest = none) :
    dataImplementation fd reqId false false e =
      ({ e with activeChunkRequest :=
                  some (newChunkRequest (fd.number / e.chunkSize)
                    (max fd.startFrame (fd.number / e.chunkSize * e.chunkSize))
                    (min fd.stopFrame ((fd.number / e.chunkSize + 1) * e.chunkSize - 1))
                    ⟨reqId, fd.number⟩) },
       [Event.serverRequest,
        Event.isChunkCachedQuery
          (max fd.startFrame (fd.number / e.chunkSize * e.chunkSize))
          (min fd.stopFrame ((fd.number / e.chunkSize + 1) * e.chunkSize - 1)),
        Event.getData (fd.number / e.chunkSize)]) := by
  unfold dataImplementation
  simp [hA]

/-! ### Claim theorems -/

/-- Claim C9: `getRanges(taskId)` returns the empty sequence when `taskId`
has never been seen by the cache, otherwise exactly the decoder's
cached-frame report, and in either case returns the registry unchanged. -/
theorem claim9_getRanges (reg : Registry) (taskID : Nat) :
    (lookupTask reg taskID = none → getRanges reg taskID = ([], reg)) ∧
    (∀ e, lookupTask reg taskID = some e →
      getRanges reg taskID = (e.cachedFrames, reg)) := by
  constructor
  · intro h
    simp [getRanges, h]
  · intro e h
    simp [getRanges, h]

/-- Witness for C9 on concrete registries. -/
theorem claim9_witness :
    getRanges [] 0 = ([], []) ∧
    getRanges [(3, ⟨[], 10, 1, 0, none, none, [(0, 8)]⟩)] 3 =
      ([(0, 8)], [(3, ⟨[], 10, 1, 0, none, none, [(0, 8)]⟩)]) :=
  ⟨(claim9_getRanges [] 0).1 rfl,
   (claim9_getRanges [(3, ⟨[], 10, 1, 0, none, none, [(0, 8)]⟩)] 3).2 _ rfl⟩

/-- Claim C10: a decode-progress or decode-failure callback whose captured
chunk number does not match the current active slot (or fires when no
active slot is present) changes nothing and settles nobody. -/
theorem claim10_stale_callback_noop (captured frameNumber : Nat)
    (e : CacheEntry)
    (h : ∀ s, e.activeChunkRequest = some s → s.chunkNumber ≠ captured) :
    onDecodeAllFn captured frameNumber e = (e, []) ∧
    rejectRequestAllFn captured e = (e, []) := by
  constructor
  · unfold onDecodeAllFn
    cases hA : e.activeChunkRequest with
    | none => rfl
    | some s =>
      have hne : ¬(captured = s.chunkNumber) := fun hEq => h s hA hEq.symm
      simp [hne]
  · unfold rejectRequestAllFn
    cases hA : e.activeChunkRequest with
    | none => rfl
    | some s =>
      have hne : ¬(captured = s.chunkNumber) := fun hEq => h s hA hEq.symm
      simp [hne]

/-- Witness for C10: a callback captured for chunk 5 fires while the active
slot holds chunk 2. -/
theorem claim10_witness :
    onDecodeAllFn 5 3 ⟨[], 10, 1, 0, some ⟨2, 20, 29, false, [⟨1, 21⟩]⟩, none, []⟩
      = (⟨[], 10, 1, 0, some ⟨2, 20, 29, false, [⟨1, 21⟩]⟩, none, []⟩, []) ∧
    rejectRequestAllFn 5 ⟨[], 10, 1, 0, some ⟨2, 20, 29, false, [⟨1, 21⟩]⟩, none, []⟩
      = (⟨[], 10, 1, 0, some ⟨2, 20, 29, false, [⟨1, 21⟩]⟩, none, []⟩, []) :=
  claim10_stale_callback_noop 5 3 _ (by intro s hs; cases hs; decide)

/-- Claim C7: on first `getFrame` for a task the decoded-frame budget is
`floor(2^31 / (1920 * 1080 * 4 * chunkSize))` for video chunk type and
`floor(500 / chunkSize)` for archive, a zero result replaced by 1; for
`chunkSize = 9` the archive budget is 55. -/
theorem claim7_budget (chunkSize : Nat) (hpos : 0 < chunkSize) :
    (decodedBlocksCacheSizeFn "video" chunkSize =
      if 2147483648 / (1920 * 1080 * 4 * chunkSize) = 0 then 1
      else 2147483648 / (1920 * 1080 * 4 * chunkSize)) ∧
    (decodedBlocksCacheSizeFn "archive" chunkSize =
      if 500 / chunkSize = 0 then 1 else 500 / chunkSize) ∧
    decodedBlocksCacheSizeFn "archive" 9 = 55 := by
  refine ⟨?_, ?_, ?_⟩
  · simp only [decodedBlocksCacheSizeFn, videoBudget_eq]
    rw [if_pos trivial]
  · simp only [decodedBlocksCacheSizeFn, archiveBudget_eq]
    rw [if_neg (by decide)]
  · simp only [decodedBlocksCacheSizeFn, archiveBudget_eq]
    rw [if_neg (by decide)]
    decide

/-- Witness for C7 at `chunkSize = 9`. -/
theorem claim7_witness :
    0 < 9 ∧ decodedBlocksCacheSizeFn "archive" 9 = 55 :=
  ⟨by decide, (claim7_budget 9 (by decide)).2.2⟩

/-- Claim C8: a request that misses the decoder computes
`chunkNumber = floor(f / chunkSize)`,
`start = max(taskStartFrame, chunkNumber * chunkSize)` and
`stop = min(taskStopFrame, (chunkNumber + 1) * chunkSize - 1)`; these bounds
are handed to `provider.isChunkCached` and stored in the slot created for
the fetch (fresh active slot or queued next slot). -/
theorem claim8_chunk_bounds (fd : FrameData) (reqId : Nat) (chunkCached : Bool)
    (e : CacheEntry) :
    Event.isChunkCachedQuery
        (max fd.startFrame (fd.number / e.chunkSize * e.chunkSize))
        (min fd.stopFrame ((fd.number / e.chunkSize + 1) * e.chunkSize - 1))
      ∈ (dataImplementation fd reqId false chunkCached e).2 ∧
    (e.activeChunkRequest = none →
      (dataImplementation fd reqId false false e).1.activeChunkRequest =
        some (newChunkRequest (fd.number / e.chunkSize)
          (max fd.startFrame (fd.number / e.chunkSize * e.chunkSize))
          (min fd.stopFrame ((fd.number / e.chunkSize + 1) * e.chunkSize - 1))
          ⟨reqId, fd.number⟩)) ∧
    (∀ s, e.activeChunkRequest = some s → s.completed = false →
      s.chunkNumber ≠ fd.number / e.chunkSize →
      (dataImplementation fd reqId false false e).1.nextChunkRequest =
        some (newChunkRequest (fd.number / e.chunkSize)
          (max fd.startFrame (fd.number / e.chunkSize * e.chunkSize))
          (min fd.stopFrame ((fd.number / e.chunkSize + 1) * e.chunkSize - 1))
          ⟨reqId, fd.number⟩)) := by
  refine ⟨?_, ?_, ?_⟩
  · unfold dataImplementation
    cases chunkCached with
    | false =>
      cases hA : e.activeChunkRequest with
      | none => simp
      | some s =>
        by_cases hc : s.completed <;>
          by_cases hk : s.chunkNumber = fd.number / e.chunkSize <;>
            simp [hA, hc, hk]
    | true =>
      cases hA : e.activeChunkRequest with
      | none => simp [hA]
      | some s => simp [hA]
  · intro hA
    unfold dataImplementation
    simp [hA]
  · intro s hA hc hk
    unfold dataImplementation
    simp [hA, hc, hk]

/-- Claim C5: displacing a slot — replacing a completed active slot by a new
active slot, or replacing a queued next slot — rejects every current waiter
of the displaced slot, each with its own original frame number. -/
theorem claim5_displacement_rejects (fd : FrameData) (reqId : Nat)
    (e : CacheEntry) (s : ChunkRequest) :
    (e.activeChunkRequest = some s → s.completed = true →
      dataImplementation fd reqId false false e =
        ({ e with activeChunkRequest :=
                    some (newChunkRequest (fd.number / e.chunkSize)
                      (max fd.startFrame (fd.number / e.chunkSize * e.chunkSize))
                      (min fd.stopFrame
                        ((fd.number / e.chunkSize + 1) * e.chunkSize - 1))
                      ⟨reqId, fd.number⟩) },
         [Event.serverRequest,
          Event.isChunkCachedQuery
            (max fd.startFrame (fd.number / e.chunkSize * e.chunkSize))
            (min fd.stopFrame ((fd.number / e.chunkSize + 1) * e.chunkSize - 1))]
           ++ s.callbacks.map rejectEvent
           ++ [Event.getData (fd.number / e.chunkSize)])) ∧
    (∀ n, e.activeChunkRequest = some s → s.completed = false →
      s.chunkNumber ≠ fd.number / e.chunkSize → e.nextChunkRequest = some n →
      dataImplementation fd reqId false false e =
        ({ e with nextChunkRequest :=
                    some (newChunkRequest (fd.number / e.chunkSize)
                      (max fd.startFrame (fd.number / e.chunkSize * e.chunkSize))
                      (min fd.stopFrame
                        ((fd.number / e.chunkSize + 1) * e.chunkSize - 1))
                      ⟨reqId, fd.number⟩) },
         [Event.serverRequest,
          Event.isChunkCachedQuery
            (max fd.startFrame (fd.number / e.chunkSize * e.chunkSize))
            (min fd.stopFrame ((fd.number / e.chunkSize + 1) * e.chunkSize - 1))]
           ++ n.callbacks.map rejectEvent)) := by
  constructor
  · intro hA hC
    unfold dataImplementation rejectRequestAllFn
    simp [hA, hC]
  · intro n hA hC hK hN
    unfold dataImplementation
    simp [hA, hC, hN, fun hEq => hK hEq]

/-- Witness for C5: a completed active slot for chunk 0 with two waiters is
displaced by a request for frame 15 (chunk 1). -/
theorem claim5_witness :
    dataImplementation ⟨100, 100, 0, 15, 0, 99⟩ 9 false false
        ⟨[], 10, 1, 0, some ⟨0, 0, 9, true, [⟨1, 3⟩, ⟨2, 7⟩]⟩, none, []⟩ =
      (⟨[], 10, 1, 0, some (newChunkRequest 1 10 19 ⟨9, 15⟩), none, []⟩,
       [Event.serverRequest, Event.isChunkCachedQuery 10 19]
         ++ [⟨1, 3⟩, ⟨2, 7⟩].map (fun w : Waiter => rejectEvent w)
         ++ [Event.getData 1]) := by
  have h := (claim5_displacement_rejects ⟨100, 100, 0, 15, 0, 99⟩ 9
    ⟨[], 10, 1, 0, some ⟨0, 0, 9, true, [⟨1, 3⟩, ⟨2, 7⟩]⟩, none, []⟩
    ⟨0, 0, 9, true, [⟨1, 3⟩, ⟨2, 7⟩]⟩).1 rfl rfl
  exact h

/-- Claim C3 fails on the code: when the fetch fails with no next slot
queued, only the creating request's promise is rejected — here waiter 2 is
never settled and the active slot (with both waiters) is left in place, not
cleared. -/
theorem claim3_counterexample :
    (settleFetchFailure 1 "network error"
        ⟨[], 10, 1, 0, some ⟨0, 0, 9, false, [⟨1, 3⟩, ⟨2, 7⟩]⟩, none, []⟩).1.activeChunkRequest
      = some ⟨0, 0, 9, false, [⟨1, 3⟩, ⟨2, 7⟩]⟩ ∧
    countTouch 2
        (settleFetchFailure 1 "network error"
          ⟨[], 10, 1, 0, some ⟨0, 0, 9, false, [⟨1, 3⟩, ⟨2, 7⟩]⟩, none, []⟩).2
      = 0 := by
  constructor
  · rfl
  · rfl

/-- Claim C3 amended: on fetch failure the error is wrapped into a uniform
domain error carrying the original message and rejects only the promise of
the request whose `data()` call created the fetch closure; the slot is not
cleared and its other waiters are not rejected unless a next slot is queued,
in which case the `finally` step rejects the active slot's waiters (with
their own frame numbers) and promotes the next slot. -/
theorem claim3_amended (outerId : Nat) (msg : String) (e : CacheEntry) :
    (e.nextChunkRequest = none →
      settleFetchFailure outerId msg e =
        (e, [Event.rejected outerId (Reason.exception msg)])) ∧
    (∀ n s, e.nextChunkRequest = some n → e.activeChunkRequest = some s →
      settleFetchFailure outerId msg e =
        ({ e with activeChunkRequest := some n, nextChunkRequest := none },
         Event.rejected outerId (Reason.exception msg)
           :: (s.callbacks.map rejectEvent ++ [Event.getData n.chunkNumber]))) := by
  constructor
  · intro hN
    unfold settleFetchFailure settleFinally
    simp [hN]
  · intro n s hN hA
    unfold settleFetchFailure settleFinally
    simp [hN, hA]

/-- Witness for C3 amended: failure with no queued next slot rejects exactly
the creating request's promise. -/
theorem claim3_witness :
    settleFetchFailure 1 "network error"
        ⟨[], 10, 1, 0, some ⟨0, 0, 9, false, [⟨1, 3⟩, ⟨2, 7⟩]⟩, none, []⟩ =
      (⟨[], 10, 1, 0, some ⟨0, 0, 9, false, [⟨1, 3⟩, ⟨2, 7⟩]⟩, none, []⟩,
       [Event.rejected 1 (Reason.exception "network error")]) :=
  (claim3_amended 1 "network error"
    ⟨[], 10, 1, 0, some ⟨0, 0, 9, false, [⟨1, 3⟩, ⟨2, 7⟩]⟩, none, []⟩).1 rfl

/-- Claim C4: once the active slot's fetch settles (success or failure), a
queued next slot causes the remaining waiters of the active slot to be
rejected, the next slot to be promoted to active, and its fetch to start
(`getData` is issued for it); and creating a queued next slot (a request for
a different chunk while the active fetch is in flight) never issues a
`getData` — so a queued slot's fetch begins only through settlement of the
active one. -/
theorem claim4_sequential_promotion (outerId : Nat) (msg : String)
    (e : CacheEntry) (n : ChunkRequest) :
    (e.nextChunkRequest = some n →
      (∀ s, e.activeChunkRequest = some s →
        settleFetchSuccess outerId e =
          ({ e with activeChunkRequest := some n, nextChunkRequest := none },
           Event.requestDecodeBlock true s.start s.stop s.chunkNumber
             :: (s.callbacks.map rejectEvent ++ [Event.getData n.chunkNumber]))) ∧
      (∀ s, e.activeChunkRequest = some s →
        settleFetchFailure outerId msg e =
          ({ e with activeChunkRequest := some n, nextChunkRequest := none },
           Event.rejected outerId (Reason.exception msg)
             :: (s.callbacks.map rejectEvent ++ [Event.getData n.chunkNumber])))) ∧
    (∀ (fd : FrameData) (reqId : Nat) (s : ChunkRequest),
       e.activeChunkRequest = some s → s.completed = false →
       s.chunkNumber ≠ fd.number / e.chunkSize →
       countGetData (dataImplementation fd reqId false false e).2 = 0) := by
  constructor
  · intro hN
    constructor
    · intro s hA
      unfold settleFetchSuccess settleFinally
      simp [hN, hA]
    · intro s hA
      unfold settleFetchFailure settleFinally
      simp [hN, hA]
  · intro fd reqId s hA hC hK
    unfold dataImplementation
    cases hNx : e.nextChunkRequest with
    | none => simp [hA, hC, hNx, fun hEq => hK hEq, countGetData]
    | some n2 => simp [hA, hC, hNx, fun hEq => hK hEq, countGetData, rejectEvent]

/-- Witness for C4: success settlement of the chunk-0 fetch with a queued
chunk-1 slot promotes it and starts its fetch. -/
theorem claim4_witness :
    settleFetchSuccess 1
        ⟨[], 10, 1, 0, some ⟨0, 0, 9, false, [⟨1, 3⟩]⟩,
          some ⟨1, 10, 19, false, [⟨3, 15⟩]⟩, []⟩ =
      (⟨[], 10, 1, 0, some ⟨1, 10, 19, false, [⟨3, 15⟩]⟩, none, []⟩,
       Event.requestDecodeBlock true 0 9 0
         :: ([⟨1, 3⟩].map (fun w : Waiter => rejectEvent w)
              ++ [Event.getData 1])) := by
  have h := ((claim4_sequential_promotion 1 "unused"
    ⟨[], 10, 1, 0, some ⟨0, 0, 9, false, [⟨1, 3⟩]⟩,
      some ⟨1, 10, 19, false, [⟨3, 15⟩]⟩, []⟩
    ⟨1, 10, 19, false, [⟨3, 15⟩]⟩).1 rfl).1 ⟨0, 0, 9, false, [⟨1, 3⟩]⟩ rfl
  exact h

/-- Witness for C8: frame 15, chunk size 10, task range [0, 99]. -/
theorem claim8_witness :
    Event.isChunkCachedQuery 10 19
        ∈ (dataImplementation ⟨100, 100, 0, 15, 0, 99⟩ 1 false false
            ⟨[], 10, 1, 0, none, none, []⟩).2 ∧
    (dataImplementation ⟨100, 100, 0, 15, 0, 99⟩ 1 false false
        ⟨[], 10, 1, 0, none, none, []⟩).1.activeChunkRequest =
      some (newChunkRequest 1 10 19 ⟨1, 15⟩) := by
  have h := claim8_chunk_bounds ⟨100, 100, 0, 15, 0, 99⟩ 1 false
    ⟨[], 10, 1, 0, none, none, []⟩
  exact ⟨h.1, h.2.1 rfl⟩

/-- Claim C6 fails on the code: calling `getFrame` on a previously-unseen
task with `mode = annotation` and a frame beyond the metadata does raise the
argument error, but the per-task cache entry has already been inserted by
then — the cache is NOT left as it was (here: empty) before the call. -/
theorem claim6_counterexample :
    (getFrame [] 7 9 "archive" "annotation" 5 0 99 [⟨100, 100⟩]).2
      = Except.error (GetFrameError.argumentError (metaErrorMessage 5)) ∧
    lookupTask (getFrame [] 7 9 "archive" "annotation" 5 0 99 [⟨100, 100⟩]).1 7
      ≠ none := by
  constructor
  · simp [getFrame, lookupTask, getFrameSize]
  · simp [getFrame, lookupTask, getFrameSize]

/-- Claim C6 amended: `getFrame` raises an argument error when the mode is
neither `interpolation` nor `annotation`, and when `mode = annotation` with
`frameNumber ≥` the metadata length; in the latter case the registry is left
unchanged when the task already had a cache entry, but for a previously
unseen task the entry is created (and retained) before the error is
raised. -/
theorem claim6_amended (reg : Registry) (taskID chunkSize : Nat)
    (chunkType mode : String) (frame startFrame stopFrame : Nat)
    (fetchedMeta : List Size) :
    (mode ≠ "interpolation" → mode ≠ "annotation" →
      (getFrame reg taskID chunkSize chunkType mode frame startFrame stopFrame
          fetchedMeta).2
        = Except.error (GetFrameError.argumentError (invalidModeMessage mode))) ∧
    (∀ e, lookupTask reg taskID = some e → e.meta.length ≤ frame →
      getFrame reg taskID chunkSize chunkType "annotation" frame startFrame
          stopFrame fetchedMeta
        = (reg, Except.error (GetFrameError.argumentError (metaErrorMessage frame)))) ∧
    (lookupTask reg taskID = none → fetchedMeta.length ≤ frame →
      (getFrame reg taskID chunkSize chunkType "annotation" frame startFrame
          stopFrame fetchedMeta).2
        = Except.error (GetFrameError.argumentError (metaErrorMessage frame)) ∧
      lookupTask (getFrame reg taskID chunkSize chunkType "annotation" frame
          startFrame stopFrame fetchedMeta).1 taskID ≠ none) := by
  refine ⟨?_, ?_, ?_⟩
  · intro h1 h2
    unfold getFrame
    cases hL : lookupTask reg taskID with
    | none =>
      simp only [hL]
      rw [lookupTask, if_pos rfl]
      simp [getFrameSize, h1, h2]
    | some e =>
      simp only [hL]
      simp [getFrameSize, h1, h2]
  · intro e hL hlen
    unfold getFrame
    simp only [hL]
    simp [getFrameSize, hlen]
  · intro hL hlen
    unfold getFrame
    simp only [hL]
    rw [lookupTask, if_pos rfl]
    simp [getFrameSize, hlen, lookupTask]

/-- Witness for C6 amended: invalid mode, and annotation out-of-bounds on an
already-cached task. -/
theorem claim6_witness :
    (getFrame [(7, ⟨[⟨100, 100⟩], 9, 1, 0, none, none, []⟩)] 7 9 "archive"
        "wrong" 0 0 99 []).2
      = Except.error (GetFrameError.argumentError (invalidModeMessage "wrong")) ∧
    getFrame [(7, ⟨[⟨100, 100⟩], 9, 1, 0, none, none, []⟩)] 7 9 "archive"
        "annotation" 5 0 99 []
      = ([(7, ⟨[⟨100, 100⟩], 9, 1, 0, none, none, []⟩)],
         Except.error (GetFrameError.argumentError (metaErrorMessage 5))) :=
  ⟨(claim6_amended [(7, ⟨[⟨100, 100⟩], 9, 1, 0, none, none, []⟩)] 7 9 "archive"
      "wrong" 0 0 99 []).1 (by decide) (by decide),
   (claim6_amended [(7, ⟨[⟨100, 100⟩], 9, 1, 0, none, none, []⟩)] 7 9 "archive"
      "annotation" 5 0 99 []).2.1 _ rfl (by decide)⟩

/-- Invariant step for C1: while the active slot is busy (not completed)
fetching chunk `c`, a batch of further missed requests for frames of chunk
`c` issues no `getData` call. -/
lemma runRequests_busy (c : Nat) :
    ∀ (reqs : List (Nat × FrameData)) (e : CacheEntry) (s : ChunkRequest),
      e.activeChunkRequest = some s → s.completed = false → s.chunkNumber = c →
      (∀ r ∈ reqs, r.2.number / e.chunkSize = c) →
      countGetData (runRequests reqs e).2 = 0 := by
  intro reqs
  induction reqs with
  | nil =>
    intro e s c' _ _ _
    simp [runRequests, countGetData]
  | cons hd tl ih =>
    intro e s hA hC hK hall
    obtain ⟨reqId, fd⟩ := hd
    have hfd : fd.number / e.chunkSize = c := hall (reqId, fd) (by simp)
    rw [runRequests]
    rw [dataImpl_append_same_chunk fd reqId e s hA hC (by rw [hK, hfd])]
    simp only [countGetData, List.countP_append]
    have h0 : countGetData (runRequests tl
        ({ e with activeChunkRequest :=
                    some { s with callbacks := s.callbacks ++ [⟨reqId, fd.number⟩] } })).2 = 0 := by
      apply ih _ { s with callbacks := s.callbacks ++ [⟨reqId, fd.number⟩] } rfl hC hK
      intro r hr
      exact hall r (by simp [hr])
    simpa [countGetData] using h0

/-- Claim C1: (a) when the active slot's fetch is not completed and a new
missed request's chunk equals the active slot's chunk, the request is
appended to the waiter list and no `getData` is issued; (b) hence a
non-empty batch of concurrent missed requests all mapping to chunk `c`,
issued while no fetch is in flight, makes exactly one `getData` call. -/
theorem claim1_coalesced_fetch (fd : FrameData) (reqId : Nat) (e : CacheEntry)
    (s : ChunkRequest) :
    (e.activeChunkRequest = some s → s.completed = false →
      s.chunkNumber = fd.number / e.chunkSize →
      dataImplementation fd reqId false false e =
        ({ e with activeChunkRequest :=
                    some { s with callbacks := s.callbacks ++ [⟨reqId, fd.number⟩] } },
         [Event.serverRequest,
          Event.isChunkCachedQuery
            (max fd.startFrame (fd.number / e.chunkSize * e.chunkSize))
            (min fd.stopFrame ((fd.number / e.chunkSize + 1) * e.chunkSize - 1))]) ∧
      countGetData (dataImplementation fd reqId false false e).2 = 0) ∧
    (∀ (reqs : List (Nat × FrameData)) (c : Nat),
      e.activeChunkRequest = none → reqs ≠ [] →
      (∀ r ∈ reqs, r.2.number / e.chunkSize = c) →
      countGetData (runRequests reqs e).2 = 1) := by
  constructor
  · intro hA hC hK
    have heq := dataImpl_append_same_chunk fd reqId e s hA hC hK
    refine ⟨heq, ?_⟩
    rw [heq]
    rfl
  · intro reqs c hA hne hall
    cases reqs with
    | nil => exact absurd rfl hne
    | cons hd tl =>
      obtain ⟨rid, f⟩ := hd
      have hf : f.number / e.chunkSize = c := hall (rid, f) (by simp)
      rw [runRequests]
      rw [dataImpl_fresh f rid e hA]
      simp only [countGetData, List.countP_append]
      have h0 : countGetData (runRequests tl
          ({ e with activeChunkRequest :=
                      some (newChunkRequest (f.number / e.chunkSize)
                        (max f.startFrame (f.number / e.chunkSize * e.chunkSize))
                        (min f.stopFrame
                          ((f.number / e.chunkSize + 1) * e.chunkSize - 1))
                        ⟨rid, f.number⟩) })).2 = 0 := by
        apply runRequests_busy c tl _
          (newChunkRequest (f.number / e.chunkSize)
            (max f.startFrame (f.number / e.chunkSize * e.chunkSize))
            (min f.stopFrame ((f.number / e.chunkSize + 1) * e.chunkSize - 1))
            ⟨rid, f.number⟩) rfl rfl hf
        intro r hr
        exact hall r (by simp [hr])
      simp only [countGetData] at h0
      rw [h0]
      rfl

/-- Witness for C1: concurrent missed requests for frames 3 and 7 (both of
chunk 0, chunk size 10) issued with no fetch in flight make exactly one
`getData` call. -/
theorem claim1_witness :
    countGetData (runRequests
        [(1, ⟨100, 100, 0, 3, 0, 99⟩), (2, ⟨100, 100, 0, 7, 0, 99⟩)]
        ⟨[], 10, 1, 0, none, none, []⟩).2 = 1 :=
  (claim1_coalesced_fetch ⟨100, 100, 0, 3, 0, 99⟩ 0
      ⟨[], 10, 1, 0, none, none, []⟩ ⟨0, 0, 9, false, []⟩).2
    [(1, ⟨100, 100, 0, 3, 0, 99⟩), (2, ⟨100, 100, 0, 7, 0, 99⟩)] 0
    rfl (by decide) (by decide)

/-! ### Lemmas for the decode-all analysis (claim C2) -/

/-- Closed form of the splice loop: the remaining array keeps the
non-matching waiters in order, and the matching waiters are resolved in
back-to-front order. -/
lemma spliceResolve_eq (k : Nat) :
    ∀ ws : List Waiter,
      spliceResolve k ws =
        (ws.filter fun w => !(w.frameNumber == k),
         ((ws.filter fun w => w.frameNumber == k).reverse).map fun w =>
           Event.resolved w.resolveId w.frameNumber) := by
  intro ws
  induction ws with
  | nil => rfl
  | cons w tl ih =>
    by_cases h : w.frameNumber = k
    · simp [spliceResolve, ih, h]
    · simp [spliceResolve, ih, h]

/-- `onDecodeAll` on a matching active slot: remove and resolve the waiters
of the decoded frame, clearing the slot if the list empties. -/
lemma onDecodeAll_active (c k : Nat) (e : CacheEntry) (s : ChunkRequest)
    (hA : e.activeChunkRequest = some s) (hc : s.chunkNumber = c) :
    onDecodeAllFn c k e =
      (if (s.callbacks.filter fun w => !(w.frameNumber == k)).isEmpty then
        ({ e with activeChunkRequest := none },
         ((s.callbacks.filter fun w => w.frameNumber == k).reverse).map fun w =>
           Event.resolved w.resolveId w.frameNumber)
      else
        ({ e with activeChunkRequest :=
                    some { s with callbacks :=
                      s.callbacks.filter fun w => !(w.frameNumber == k) } },
         ((s.callbacks.filter fun w => w.frameNumber == k).reverse).map fun w =>
           Event.resolved w.resolveId w.frameNumber)) := by
  unfold onDecodeAllFn
  rw [hA]
  simp only [hc, spliceResolve_eq, if_pos]

/-- With no active slot, decoding is a no-op. -/
lemma decodeFrames_none (c : Nat) :
    ∀ (fns : List Nat) (e : CacheEntry),
      e.activeChunkRequest = none → decodeFrames c fns e = (e, []) := by
  intro fns
  induction fns with
  | nil => intro e _; rfl
  | cons k rest ih =>
    intro e h
    have h1 : onDecodeAllFn c k e = (e, []) := by
      unfold onDecodeAllFn
      rw [h]
    rw [decodeFrames]
    simp [h1, ih e h]

lemma filter_keep_comm (k : Nat) (rest : List Nat) (ws : List Waiter) :
    ((ws.filter fun w => !(w.frameNumber == k)).filter
        fun w => !(decide (w.frameNumber ∈ rest)))
      = ws.filter fun w => !(decide (w.frameNumber ∈ k :: rest)) := by
  rw [List.filter_filter]
  apply List.filter_congr
  intro w _
  by_cases h1 : w.frameNumber = k <;> by_cases h2 : w.frameNumber ∈ rest <;>
    simp [h1, h2]

lemma filter_eq_comm (k k' : Nat) (hne : k' ≠ k) (ws : List Waiter) :
    ((ws.filter fun w => !(w.frameNumber == k)).filter
        fun w => w.frameNumber == k')
      = ws.filter fun w => w.frameNumber == k' := by
  rw [List.filter_filter]
  apply List.filter_congr
  intro w _
  by_cases h1 : w.frameNumber = k' <;> simp [h1, hne]

lemma resolvedEvents_cons (ws : List Waiter) (k : Nat) (rest : List Nat) :
    resolvedEvents ws (k :: rest) =
      (((ws.filter fun w => w.frameNumber == k).reverse).map fun w =>
        Event.resolved w.resolveId w.frameNumber) ++ resolvedEvents ws rest := by
  simp [resolvedEvents]

lemma resolvedEvents_congr (ws ws' : List Waiter) (rest : List Nat)
    (h : ∀ k' ∈ rest,
      ws.filter (fun w => w.frameNumber == k')
        = ws'.filter (fun w => w.frameNumber == k')) :
    resolvedEvents ws rest = resolvedEvents ws' rest := by
  unfold resolvedEvents
  congr 1
  apply List.map_congr_left
  intro k' hk'
  rw [h k' hk']

lemma resolvedEvents_all_k (ws : List Waiter) (k : Nat)
    (hall : ∀ w ∈ ws, w.frameNumber = k) (rest : List Nat) (hk : k ∉ rest) :
    resolvedEvents ws rest = [] := by
  unfold resolvedEvents
  rw [List.flatten_eq_nil_iff]
  intro l hl
  obtain ⟨k', hk', rfl⟩ := List.mem_map.mp hl
  have hnil : ws.filter (fun w => w.frameNumber == k') = [] := by
    rw [List.filter_eq_nil_iff]
    intro w hw
    have hwk := hall w hw
    simp [hwk]
    exact fun hEq => hk (hEq ▸ hk')
  rw [hnil]
  rfl

/-- Closed form of a full decode run against an active slot for the decoded
chunk: the surviving waiters are exactly those whose frame is not among the
decoded frames (the slot is cleared when none survive), and the emitted
events are the per-frame resolutions. -/
lemma decodeFrames_closed (c : Nat) :
    ∀ (fns : List Nat) (e : CacheEntry) (s : ChunkRequest),
      fns.Nodup → e.activeChunkRequest = some s → s.chunkNumber = c →
      s.callbacks ≠ [] →
      decodeFrames c fns e =
        ((if (remainingCallbacks s.callbacks fns).isEmpty then
            { e with activeChunkRequest := none }
          else
            { e with activeChunkRequest :=
                       some { s with callbacks :=
                         remainingCallbacks s.callbacks fns } }),
         resolvedEvents s.callbacks fns) := by
  intro fns
  induction fns with
  | nil =>
    intro e s _ hA _ hne
    have hrem : remainingCallbacks s.callbacks [] = s.callbacks := by
      simp [remainingCallbacks]
    rw [hrem, if_neg (by simpa [List.isEmpty_iff] using hne)]
    obtain ⟨m, cs, d, l, a, nx, cf⟩ := e
    cases hA
    rfl
  | cons k rest ih =>
    intro e s hnd hA hc hne
    rw [List.nodup_cons] at hnd
    obtain ⟨hk, hndr⟩ := hnd
    rw [decodeFrames]
    rw [onDecodeAll_active c k e s hA hc]
    by_cases h0 : (s.callbacks.filter fun w => !(w.frameNumber == k)).isEmpty
    · rw [if_pos h0]
      have hallk : ∀ w ∈ s.callbacks, w.frameNumber = k := by
        intro w hw
        have hnil : (s.callbacks.filter fun w => !(w.frameNumber == k)) = [] :=
          List.isEmpty_iff.mp h0
        have := List.filter_eq_nil_iff.mp hnil w hw
        simpa using this
      have hrem : remainingCallbacks s.callbacks (k :: rest) = [] := by
        rw [remainingCallbacks, List.filter_eq_nil_iff]
        intro w hw
        simp [hallk w hw]
      rw [hrem]
      rw [decodeFrames_none c rest _ rfl]
      rw [resolvedEvents_cons]
      rw [resolvedEvents_all_k s.callbacks k hallk rest hk]
      simp
    · rw [if_neg h0]
      have hne1 : (s.callbacks.filter fun w => !(w.frameNumber == k)) ≠ [] :=
        fun hEq => h0 (by simp [hEq])
      have hstep :=
        ih { e with activeChunkRequest := some { s with callbacks := s.callbacks.filter fun w => !(w.frameNumber == k) } }
          { s with callbacks := s.callbacks.filter fun w => !(w.frameNumber == k) }
          hndr rfl hc hne1
      rw [hstep]
      have hfk : remainingCallbacks
          (s.callbacks.filter fun w => !(w.frameNumber == k)) rest
        = remainingCallbacks s.callbacks (k :: rest) := by
        rw [remainingCallbacks, remainingCallbacks]
        exact filter_keep_comm k rest s.callbacks
      have hev : resolvedEvents
          (s.callbacks.filter fun w => !(w.frameNumber == k)) rest
        = resolvedEvents s.callbacks rest := by
        apply resolvedEvents_congr
        intro k' hk'
        exact filter_eq_comm k k' (fun hEq => hk (hEq ▸ hk')) s.callbacks
      simp only [hfk, hev, resolvedEvents_cons]

lemma countP_mem_combine (i k : Nat) (rest : List Nat) (hk : k ∉ rest) :
    ∀ ws : List Waiter,
      (ws.countP fun w => (w.resolveId == i) && (w.frameNumber == k))
          + (ws.countP fun w => (w.resolveId == i) && decide (w.frameNumber ∈ rest))
        = ws.countP fun w => (w.resolveId == i) && decide (w.frameNumber ∈ k :: rest) := by
  intro ws
  induction ws with
  | nil => rfl
  | cons w tl ih =>
    simp only [List.countP_cons]
    rw [← ih]
    by_cases h2 : w.frameNumber = k
    · by_cases h1 : w.resolveId = i <;> simp [h1, h2, hk] <;> omega
    · by_cases h1 : w.resolveId = i <;> by_cases h3 : w.frameNumber ∈ rest <;>
        simp [h1, h2, h3] <;> omega

/-- Settlement count over a full decode run: continuation `i` is settled
once per waiter carrying it whose frame is among the decoded frames. -/
lemma countTouch_resolvedEvents (i : Nat) (ws : List Waiter) :
    ∀ fns : List Nat, fns.Nodup →
      countTouch i (resolvedEvents ws fns)
        = ws.countP fun w => (w.resolveId == i) && decide (w.frameNumber ∈ fns) := by
  intro fns
  induction fns with
  | nil =>
    intro _
    rw [List.countP_eq_zero.mpr]
    · rfl
    · intro w _
      simp
  | cons k rest ih =>
    intro hnd
    rw [List.nodup_cons] at hnd
    rw [resolvedEvents_cons]
    rw [countTouch, List.countP_append]
    have hblock : ((((ws.filter fun w => w.frameNumber == k).reverse).map fun w =>
          Event.resolved w.resolveId w.frameNumber).countP (touches i))
        = ws.countP fun w => (w.resolveId == i) && (w.frameNumber == k) := by
      rw [List.countP_map, List.countP_reverse, List.countP_filter]
      apply List.countP_congr
      intro v _
      simp [touches, Function.comp]
    rw [hblock]
    have hrest := ih hnd.2
    rw [countTouch] at hrest
    rw [hrest]
    exact countP_mem_combine i k rest hnd.1 ws

/-- In a callback list with pairwise distinct continuation ids, a predicate
satisfied by the member `w` and implying `w`'s id counts exactly one. -/
lemma countP_single_waiter (i : Nat) (p : Waiter → Bool) :
    ∀ ws : List Waiter, (ws.map Waiter.resolveId).Nodup →
      ∀ w ∈ ws, w.resolveId = i → p w = true →
      (∀ v, p v = true → v.resolveId = i) →
      ws.countP p = 1 := by
  intro ws
  induction ws with
  | nil =>
    intro _ w hmem
    exact absurd hmem (List.not_mem_nil w)
  | cons v tl ih =>
    intro hnd w hmem hwi hpw hp
    rw [List.map_cons, List.nodup_cons] at hnd
    obtain ⟨hv, hndtl⟩ := hnd
    rcases List.mem_cons.mp hmem with hwv | hwtl
    · subst hwv
      rw [List.countP_cons_of_pos _ _ hpw]
      rw [List.countP_eq_zero.mpr]
      intro u hu hpu
      exact hv (((hp u hpu).trans hwi.symm) ▸ List.mem_map_of_mem Waiter.resolveId hu)
    · have hpv : ¬ p v = true := by
        intro hpv
        exact hv ((hp v hpv).trans hwi.symm ▸ List.mem_map_of_mem Waiter.resolveId hwtl)
      rw [List.countP_cons_of_neg _ _ hpv]
      exact ih hndtl w hwtl hwi hpw hp

/-- Claim C2: when the chunk fetch and a full decode of the slot's frame
range complete successfully (the decoder calls the decode-progress callback
once for each frame of `[start, stop]`, in any order), every waiter of the
active slot whose frame lies in `[start, stop]` is settled exactly once and
removed from the slot, and when every waiter lies in the range the active
slot ends up cleared. -/
theorem claim2_decode_resolves_all (e : CacheEntry) (s : ChunkRequest)
    (fns : List Nat)
    (hA : e.activeChunkRequest = some s)
    (hnd : fns.Nodup)
    (hrange : ∀ k : Nat, k ∈ fns ↔ (s.start ≤ k ∧ k ≤ s.stop))
    (hids : (s.callbacks.map Waiter.resolveId).Nodup)
    (hne : s.callbacks ≠ []) :
    (∀ w ∈ s.callbacks, s.start ≤ w.frameNumber → w.frameNumber ≤ s.stop →
      countTouch w.resolveId (decodeFrames s.chunkNumber fns e).2 = 1 ∧
      ∀ s2, (decodeFrames s.chunkNumber fns e).1.activeChunkRequest = some s2 →
        w ∉ s2.callbacks) ∧
    ((∀ w ∈ s.callbacks, s.start ≤ w.frameNumber ∧ w.frameNumber ≤ s.stop) →
      (decodeFrames s.chunkNumber fns e).1.activeChunkRequest = none) := by
  have hclosed := decodeFrames_closed s.chunkNumber fns e s hnd hA rfl hne
  constructor
  · intro w hw h1 h2
    have hwin : w.frameNumber ∈ fns := (hrange w.frameNumber).mpr ⟨h1, h2⟩
    constructor
    · rw [hclosed]
      rw [countTouch_resolvedEvents w.resolveId s.callbacks fns hnd]
      apply countP_single_waiter w.resolveId _ s.callbacks hids w hw rfl
      · simp [hwin]
      · intro v hv
        simp only [Bool.and_eq_true, beq_iff_eq, decide_eq_true_eq] at hv
        exact hv.1
    · intro s2 hs2 hw2
      rw [hclosed] at hs2
      by_cases h0 : (remainingCallbacks s.callbacks fns).isEmpty
      · rw [if_pos h0] at hs2
        simp at hs2
      · rw [if_neg h0] at hs2
        have hs2' : some { s with callbacks := remainingCallbacks s.callbacks fns }
            = some s2 := hs2
        have heq := Option.some.inj hs2'
        have hw3 : w ∈ s.callbacks.filter fun v => !(decide (v.frameNumber ∈ fns)) := by
          rw [← heq] at hw2
          exact hw2
        have hmem := (List.mem_filter.mp hw3).2
        simp [hwin] at hmem
  · intro hall
    rw [hclosed]
    have hrem : remainingCallbacks s.callbacks fns = [] := by
      rw [remainingCallbacks, List.filter_eq_nil_iff]
      intro w hw
      have := (hrange w.frameNumber).mpr (hall w hw)
      simp [this]
    rw [hrem]
    rfl

/-- Witness for C2: a slot for chunk 0 covering frames [0, 2] with waiters
for frames 0 and 2; decoding frames 0, 1, 2 settles each waiter exactly once
and clears the slot. -/
theorem claim2_witness :
    countTouch 1 (decodeFrames 0 [0, 1, 2]
        ⟨[], 3, 1, 0, some ⟨0, 0, 2, true, [⟨1, 0⟩, ⟨2, 2⟩]⟩, none, []⟩).2 = 1 ∧
    countTouch 2 (decodeFrames 0 [0, 1, 2]
        ⟨[], 3, 1, 0, some ⟨0, 0, 2, true, [⟨1, 0⟩, ⟨2, 2⟩]⟩, none, []⟩).2 = 1 ∧
    (decodeFrames 0 [0, 1, 2]
        ⟨[], 3, 1, 0, some ⟨0, 0, 2, true, [⟨1, 0⟩, ⟨2, 2⟩]⟩, none, []⟩).1.activeChunkRequest
      = none := by
  have H := claim2_decode_resolves_all
    ⟨[], 3, 1, 0, some ⟨0, 0, 2, true, [⟨1, 0⟩, ⟨2, 2⟩]⟩, none, []⟩
    ⟨0, 0, 2, true, [⟨1, 0⟩, ⟨2, 2⟩]⟩ [0, 1, 2] rfl (by decide)
    (by
      intro k
      simp only [List.mem_cons, List.not_mem_nil, or_false]
      omega)
    (by decide) (by decide)
  exact ⟨(H.1 ⟨1, 0⟩ (by decide) (by decide) (by decide)).1,
         (H.1 ⟨2, 2⟩ (by decide) (by decide) (by decide)).1,
         H.2 (by decide)⟩

end CvatFrames
